import Mathlib

/-
  Verification of the travel-assistant agent loop
  (sources: src/main.py, src/run_assistant.py, src/server.py).

  The Python program is shallowly embedded: messages, tool calls, the
  manual tool node, the router, the retry/backoff wrapper, the LangGraph
  agent/tool loop and the two consumption modes (buffered and streaming)
  become executable Lean definitions; floats become rationals.
-/

namespace TravelAssistant

/-! ## Data model: messages and tool calls (langchain message types) -/

/-- A tool call request embedded in an agent message: tool name, argument
mapping (keyword arguments, as key/value string pairs) and call identifier. -/
structure ToolCall where
  name : String
  args : List (String × String)
  id : String
deriving DecidableEq

/-- A conversation message: `human` (HumanMessage), `ai` (AIMessage, with its
`tool_calls` list) or `toolMsg` (ToolMessage with `tool_call_id` and `name`). -/
inductive Message where
  | human (content : String)
  | ai (content : String) (tool_calls : List ToolCall)
  | toolMsg (content : String) (tool_call_id : String) (name : String)
deriving DecidableEq

/-- The `.content` attribute of a message. -/
def Message.content : Message → String
  | Message.human c => c
  | Message.ai c _ => c
  | Message.toolMsg c _ _ => c

/-- Python `hasattr(msg, "tool_calls") and msg.tool_calls`: true exactly for
an AIMessage whose tool-call list is non-empty (only AIMessage has the
attribute; an empty list is falsy). -/
def Message.hasToolCalls : Message → Bool
  | Message.ai _ tcs => !tcs.isEmpty
  | _ => false

/-- The `.tool_calls` list of an agent message (`[]` on other variants;
the Tool Step precondition guarantees it is only read on agent messages). -/
def Message.toolCallsAttr : Message → List ToolCall
  | Message.ai _ tcs => tcs
  | _ => []

/-- The `.name` attribute: set on ToolMessages built by the tool node,
`None` on the other message kinds produced by this program. -/
def Message.nameOpt : Message → Option String
  | Message.toolMsg _ _ n => some n
  | _ => none

/-- The `.tool_call_id` attribute of a tool result message (`""` elsewhere). -/
def Message.callId : Message → String
  | Message.toolMsg _ i _ => i
  | _ => ""

/-! ## Tool registry (src/run_assistant.py, src/server.py mock tools) -/

/-- Tool dispatch failure raised by the tool wrapper during invocation. -/
inductive TErr where
  | invalidArguments (toolName : String)
deriving DecidableEq

/-- A registered tool: its name, its declared-parameter check (are all
required parameters present?) and its body. -/
structure Tool where
  name : String
  schemaOk : List (String × String) → Bool
  run : List (String × String) → String

/-- Modelled from the spec: `invoke(name, args)` "fails with
`InvalidArguments` if `args` cannot satisfy the declared parameter schema
(required parameters missing and no default declared)" (spec section 4.1); the
validation itself lives in the langchain tool wrapper, outside this
repository's sources. On success the tool body runs and returns its string. -/
def Tool.invoke (t : Tool) (args : List (String × String)) : Except TErr String :=
  if t.schemaOk args then Except.ok (t.run args) else Except.error (TErr.invalidArguments t.name)

/-- Is a keyword argument present in the argument mapping? -/
def hasArg (args : List (String × String)) (k : String) : Bool :=
  args.any (fun p => p.1 == k)

/-- Value of a keyword argument, with the declared default when omitted. -/
def getArg (args : List (String × String)) (k : String) (dflt : String) : String :=
  match args.find? (fun p => p.1 == k) with
  | some p => p.2
  | none => dflt

/-- `search_flights(origin, destination, date="2025-12-01")` from
src/run_assistant.py: returns a fixed flights JSON document (serialized
compactly here; the Python source emits the same object with `indent=2`). -/
def search_flights : Tool where
  name := "search_flights"
  schemaOk := fun args => hasArg args "origin" && hasArg args "destination"
  run := fun _ =>
    "\x7b\"flights\": [\x7b\"airline\": \"Singapore Airlines\", \"price_usd\": 450, \"duration\": \"6h 30m\"\x7d, \x7b\"airline\": \"ANA\", \"price_usd\": 420, \"duration\": \"6h 30m\"\x7d, \x7b\"airline\": \"JAL\", \"price_usd\": 480, \"duration\": \"6h 30m\"\x7d]\x7d"

/-- `get_weather(location, date="2025-12-01")` from src/run_assistant.py:
returns a weather JSON document mentioning the requested location
(serialized compactly; the source emits the same object with `indent=2`). -/
def get_weather : Tool where
  name := "get_weather"
  schemaOk := fun args => hasArg args "location"
  run := fun args =>
    "\x7b\"location\": \"" ++ getArg args "location" "" ++
      "\", \"forecast\": [\x7b\"day\": \"Day 1\", \"condition\": \"Sunny\", \"high_c\": 22, \"low_c\": 15\x7d, \x7b\"day\": \"Day 2\", \"condition\": \"Partly Cloudy\", \"high_c\": 20, \"low_c\": 14\x7d, \x7b\"day\": \"Day 3\", \"condition\": \"Clear\", \"high_c\": 23, \"low_c\": 16\x7d]\x7d"

/-- `find_attractions(location, category="all")` from src/run_assistant.py:
returns a fixed attractions JSON document (serialized compactly; the source
emits the same object with `indent=2`). -/
def find_attractions : Tool where
  name := "find_attractions"
  schemaOk := fun args => hasArg args "location"
  run := fun _ =>
    "\x7b\"attractions\": [\x7b\"name\": \"Senso-ji Temple\", \"type\": \"Cultural\", \"rating\": 4.5\x7d, \x7b\"name\": \"Tokyo Tower\", \"type\": \"Landmark\", \"rating\": 4.3\x7d, \x7b\"name\": \"Meiji Shrine\", \"type\": \"Cultural\", \"rating\": 4.6\x7d, \x7b\"name\": \"Shibuya Crossing\", \"type\": \"Entertainment\", \"rating\": 4.4\x7d, \x7b\"name\": \"Ueno Park\", \"type\": \"Nature\", \"rating\": 4.5\x7d]\x7d"

/-- `tools = [search_flights, get_weather, find_attractions]`. -/
def tools : List Tool := [search_flights, get_weather, find_attractions]

/-! ## Tool node (src/run_assistant.py `tool_node`, src/server.py `tool_node`) -/

/-- The `for t in tools: if t.name == tool_name: ... break` lookup:
first registered tool with the requested name. -/
def findTool (registry : List Tool) (name : String) : Option Tool :=
  registry.find? (fun t => t.name == name)

/-- The content expression
`content = tool_result if tool_result else "Tool not found"`:
`tool_result` is falsy when it is `None` (no tool matched) or the empty
string (a tool ran and returned `""`). -/
def toolContent (tool_result : Option String) : String :=
  match tool_result with
  | some s => if s.isEmpty then "Tool not found" else s
  | none => "Tool not found"

/-- One iteration of the tool-node loop: find and execute the tool, then
build the ToolMessage carrying the call id and the tool name. An exception
raised by `t.invoke` propagates. -/
def runToolCall (registry : List Tool) (tc : ToolCall) : Except TErr Message :=
  match findTool registry tc.name with
  | some t =>
      match t.invoke tc.args with
      | Except.ok s => Except.ok (Message.toolMsg (toolContent (some s)) tc.id tc.name)
      | Except.error e => Except.error e
  | none => Except.ok (Message.toolMsg (toolContent none) tc.id tc.name)

/-- `tool_node`: execute the requests in issuance order, collecting one
result message per request; the first uncaught exception aborts the node. -/
def tool_node (registry : List Tool) : List ToolCall → Except TErr (List Message)
  | [] => Except.ok []
  | tc :: rest =>
      match runToolCall registry tc with
      | Except.error e => Except.error e
      | Except.ok msg =>
          match tool_node registry rest with
          | Except.error e => Except.error e
          | Except.ok msgs => Except.ok (msg :: msgs)

/-! ## Router (src/main.py, src/run_assistant.py, src/server.py `should_continue`) -/

/-- The router's two outcomes: the `"tools"` edge or the `END` sentinel. -/
inductive Route where
  | tools
  | stop
deriving DecidableEq

/-- `should_continue`: read `messages[-1]`; route to tools iff it has a
non-empty `tool_calls` attribute, otherwise `END`. -/
def should_continue (messages : List Message) (h : messages ≠ []) : Route :=
  if (messages.getLast h).hasToolCalls then Route.tools else Route.stop

/-! ## Retry with exponential backoff
(src/server.py `retry_with_exponential_backoff_async`,
 src/main.py `call_llm_with_retry`) -/

/-- Outcome of the retry wrapper: the wrapped value, the re-raised last
error, or the implicit `None` of a loop over `range(0)`. -/
inductive RetryOutcome (α : Type) where
  | ok (a : α)
  | err (e : String)
  | noReturn
deriving DecidableEq

/-- `delay = min(delay * exponential_base, max_delay)`. -/
def nextDelay (base maxDelay d : ℚ) : ℚ :=
  min (d * base) maxDelay

/-- The retry loop from attempt number `attempt` with `remaining` attempts
left and current `delay`; `call n` is the outcome of the underlying call on
attempt `n`. Returns the outcome paired with the list of performed sleeps,
in order. On the last attempt a failure is re-raised without sleeping. -/
def retryFrom {α : Type} (call : Nat → Except String α) (base maxDelay : ℚ) :
    Nat → Nat → ℚ → RetryOutcome α × List ℚ
  | 0, _, _ => (RetryOutcome.noReturn, [])
  | remaining + 1, attempt, delay =>
      match call attempt with
      | Except.ok a => (RetryOutcome.ok a, [])
      | Except.error e =>
          match remaining with
          | 0 => (RetryOutcome.err e, [])
          | _ + 1 =>
              let rest := retryFrom call base maxDelay remaining (attempt + 1)
                (nextDelay base maxDelay delay)
              (rest.1, delay :: rest.2)

/-- `retry_with_exponential_backoff_async(max_retries, initial_delay,
exponential_base, max_delay)` applied to an underlying call: run the loop
`for attempt in range(max_retries)` starting with `delay = initial_delay`. -/
def retry_with_exponential_backoff_async {α : Type} (call : Nat → Except String α)
    (max_retries : Nat) (initial_delay exponential_base max_delay : ℚ) :
    RetryOutcome α × List ℚ :=
  retryFrom call exponential_base max_delay max_retries 0 initial_delay

/-- `call_llm_with_retry(messages)` from src/main.py: the same loop with the
hard-wired parameters `delay = 1.0, max_retries = 3, exponential_base = 2.0,
max_delay = 60.0`; the underlying call is `llm_with_tools.ainvoke(messages)`,
whose success yields an AIMessage (content and tool calls). -/
def call_llm_with_retry (modelCall : List Message → Nat → Except String (String × List ToolCall))
    (messages : List Message) : RetryOutcome (String × List ToolCall) × List ℚ :=
  retry_with_exponential_backoff_async (modelCall messages) 3 1 2 60

/-! ## LangGraph workflow state (src/main.py `AgentState`, `call_model`) -/

/-- Modelled from the spec: the `add_messages` reducer of the `AgentState`
annotation (langgraph library code, outside this repository's sources) —
"history is an append-only ordered sequence"; a node's returned messages are
appended to the state. -/
def add_messages (state new : List Message) : List Message :=
  state ++ new

/-- `call_model(state)` from src/main.py: invoke the LLM on the state's
messages through `call_llm_with_retry` and return `{"messages": [response]}`;
an exhausted retry re-raises the last error out of the node. The `noReturn`
branch is unreachable for `max_retries = 3` and maps to an error. -/
def call_model (modelCall : List Message → Nat → Except String (String × List ToolCall))
    (state : List Message) : Except String (List Message) :=
  match (call_llm_with_retry modelCall state).1 with
  | RetryOutcome.ok (c, tcs) => Except.ok [Message.ai c tcs]
  | RetryOutcome.err e => Except.error e
  | RetryOutcome.noReturn => Except.error ""

/-- The Agent Step as a state transformer: the node's output messages merged
into the state by the `add_messages` reducer. -/
def agent_step (modelCall : List Message → Nat → Except String (String × List ToolCall))
    (state : List Message) : Except String (List Message) :=
  (call_model modelCall state).map (fun out => add_messages state out)

/-- The Tool Step as a state transformer: run `tool_node` on the last
message's tool calls and merge the result messages into the state. -/
def tool_step (registry : List Tool) (state : List Message) (h : state ≠ []) :
    Except TErr (List Message) :=
  (tool_node registry (state.getLast h).toolCallsAttr).map
    (fun results => add_messages state results)

/-! ## Execution loop and stream events
(src/main.py `app.astream` / `app.ainvoke` driving the compiled graph) -/

/-- One `astream` event: the node name that just ran, with the node's output
messages (`event.items()` yields a single `node_name -> node_output` pair). -/
inductive NodeEvent where
  | agent (messages : List Message)
  | tools (messages : List Message)
deriving DecidableEq

/-- Python `str(e)` for a tool dispatch failure. -/
def terrMessage : TErr → String
  | TErr.invalidArguments n => "InvalidArguments: " ++ n

/-- Modelled from the spec: the compiled graph's driver (langgraph runtime,
outside this repository's sources) — "Agent Step, then Router; on `continue`
run Tool Step and repeat, on `stop` terminate", yielding one event per node
run. `fuel` bounds the otherwise unbounded agent/tool alternation (the
runtime's recursion limit); each step merges node output via `add_messages`.
Returns the events produced before termination together with the final state
(or the first uncaught failure). The tools node reads the tool calls of the
last message, which is the agent response just appended. -/
def runTrace (modelCall : List Message → Nat → Except String (String × List ToolCall))
    (registry : List Tool) :
    Nat → List Message → List NodeEvent × Except String (List Message)
  | 0, _ => ([], Except.error "Recursion limit reached")
  | fuel + 1, state =>
      match (call_llm_with_retry modelCall state).1 with
      | RetryOutcome.err e => ([], Except.error e)
      | RetryOutcome.noReturn => ([], Except.error "")
      | RetryOutcome.ok (c, tcs) =>
          match should_continue (add_messages state [Message.ai c tcs])
              (by simp [add_messages]) with
          | Route.stop =>
              ([NodeEvent.agent [Message.ai c tcs]],
               Except.ok (add_messages state [Message.ai c tcs]))
          | Route.tools =>
              match tool_node registry tcs with
              | Except.error te =>
                  ([NodeEvent.agent [Message.ai c tcs]], Except.error (terrMessage te))
              | Except.ok results =>
                  let rest := runTrace modelCall registry fuel
                    (add_messages (add_messages state [Message.ai c tcs]) results)
                  (NodeEvent.agent [Message.ai c tcs] :: NodeEvent.tools results :: rest.1,
                   rest.2)

/-! ## SSE stream (src/main.py `stream_llm_response`) -/

/-- One Server-Sent-Events record produced by the generator: a
`data: {"content": body}` record, the `data: [DONE]` sentinel, or a
`data: {"error": msg}` record. -/
inductive SSE where
  | data (body : String)
  | done
  | errorRec (msg : String)
deriving DecidableEq

/-- The two records yielded for a final (no further tool calls) agent
message: the preparation banner and the travel-plan record carrying the
content (src/main.py lines 587-589; `\\n` in the Python source is a literal
backslash-n in the emitted body). -/
def emitAgentFinal (content : String) : List String :=
  ["\\n\\n🤖 AI Agent is preparing your travel plan...\\n",
   "\\n📋 **Travel Plan:**\\n" ++ content]

/-- Python `msg.name` interpolated into an f-string (`None` when unset). -/
def nameStr (m : Message) : String :=
  match m.nameOpt with
  | some n => n
  | none => "None"

/-- The records yielded for one `astream` event by `stream_llm_response`:
for an agent event, either the analyzing banner plus one record per tool
call, or the final-content records; for a tools event, one completion record
per result message. -/
def emitEvent : NodeEvent → List SSE
  | NodeEvent.agent msgs =>
      match msgs.getLast? with
      | none => []
      | some last =>
          if last.hasToolCalls then
            SSE.data "\\n🤖 AI Agent is analyzing your request...\\n" ::
              last.toolCallsAttr.map
                (fun tc => SSE.data ("🔧 Calling " ++ tc.name ++ "...\n"))
          else if !last.content.isEmpty then
            (emitAgentFinal last.content).map SSE.data
          else []
  | NodeEvent.tools msgs =>
      msgs.map (fun m => SSE.data ("✓ " ++ nameStr m ++ " completed\\n"))

/-- The bodies of the final-content records of a run: the records emitted by
the branch of `stream_llm_response` that handles an agent message without
tool calls (spec: the `final-content` stream events). -/
def finalContentBodies (events : List NodeEvent) : List String :=
  events.flatMap (fun ev =>
    match ev with
    | NodeEvent.agent msgs =>
        match msgs.getLast? with
        | none => []
        | some last =>
            if !last.hasToolCalls && !last.content.isEmpty then
              emitAgentFinal last.content
            else []
    | NodeEvent.tools _ => [])

/-- `stream_llm_response(query)`: seed the state with one HumanMessage, emit
the records of every `astream` event in order, then — inside the same
`try` — the `[DONE]` sentinel; an exception reaching the generator is caught
and turned into a single error record instead. -/
def stream_llm_response (modelCall : List Message → Nat → Except String (String × List ToolCall))
    (registry : List Tool) (fuel : Nat) (query : String) : List SSE :=
  let tr := runTrace modelCall registry fuel [Message.human query]
  (tr.1.flatMap emitEvent) ++
    (match tr.2 with
     | Except.ok _ => [SSE.done]
     | Except.error e => [SSE.errorRec e])

/-! ## FastAPI endpoint (src/main.py `TravelRequest`, `travel_assistant_endpoint`) -/

/-- The request body: optional `query` and `prompt` fields plus the
`stream` flag (`query: str = None`, `prompt: str = None`, `stream = False`). -/
structure TravelRequest where
  query : Option String
  prompt : Option String
  stream : Bool

/-- Python truthiness of an optional string: `None` and `""` are falsy. -/
def truthyStr : Option String → Bool
  | some s => !s.isEmpty
  | none => false

/-- `TravelRequest.get_query`: `self.query or self.prompt or ""`. -/
def TravelRequest.get_query (r : TravelRequest) : String :=
  if truthyStr r.query then r.query.getD ""
  else if truthyStr r.prompt then r.prompt.getD ""
  else ""

/-- The buffered response model: final text, tools used, status. -/
structure TravelResponse where
  response : String
  used_tools : List String
  status : String
deriving DecidableEq

/-- The used-tools accumulation of the buffered branch: scan the final
history; every message whose `name` attribute is set and truthy contributes
its name, skipping names already collected. -/
def used_tools_of (msgs : List Message) : List String :=
  msgs.foldl
    (fun acc msg =>
      match msg.nameOpt with
      | some n => if !n.isEmpty && !acc.contains n then acc ++ [n] else acc
      | none => acc)
    []

/-- The enhanced system prompt wrapped around the user query
(src/main.py lines 690-715, text abridged to its fixed skeleton around the
interpolated `user_query`). -/
def enhanced_query (user_query : String) : String :=
  "You are a proactive travel assistant. When users ask about trip planning, you MUST:\n" ++
  "1. Immediately call the available tools (search_flights, get_weather, find_attractions) without asking for more details\n" ++
  "2. Use reasonable defaults: today\x27s date is 2025-12-06, use \"2025-12-15\" as default travel date if not specified\n" ++
  "3. After gathering tool results, format your response EXACTLY like this:\n\n" ++
  "Flights Found:\n- [Origin] → [Destination], $[Price], [Time]\n\n" ++
  "Weather Forecast:\n- Day 1: [Condition]\n- Day 2: [Condition]\n- Day 3: [Condition]\n\n" ++
  "Top Attractions:\n- [Attraction 1]\n- [Attraction 2]\n- [Attraction 3]\n\n" ++
  "Suggested Itinerary:\nDay 1: [Area/Activity]\nDay 2: [Area/Activity]\nDay 3: [Area/Activity]\n\n" ++
  "User query: " ++ user_query ++ "\n\n" ++
  "Remember: USE THE TOOLS FIRST, then format the response as shown above."

/-- What the endpoint hands back: a streaming response, a buffered
`TravelResponse`, or an HTTP error (422 rejection / 500 failure). -/
inductive ApiResult where
  | streamR (records : List SSE)
  | bufferedR (resp : TravelResponse)
  | httpError (status : Nat) (detail : String)
deriving DecidableEq

/-- The buffered branch's response built from the final workflow state:
`response_content = result["messages"][-1].content` together with the
used-tools scan over the whole history and status `"success"`. -/
def buffered_response (finalState : List Message) : TravelResponse where
  response := (finalState.getLastD (Message.human "")).content
  used_tools := used_tools_of finalState
  status := "success"

/-- `travel_assistant_endpoint(request)`: resolve the query via `get_query`;
reject with HTTP 422 when it is empty, before any workflow invocation;
otherwise wrap it in the enhanced prompt and either stream or run the
workflow to completion, mapping an uncaught failure to HTTP 500. -/
def travel_assistant_endpoint
    (modelCall : List Message → Nat → Except String (String × List ToolCall))
    (registry : List Tool) (fuel : Nat) (request : TravelRequest) : ApiResult :=
  let user_query := request.get_query
  if user_query.isEmpty then
    ApiResult.httpError 422 "Missing required field: \x27query\x27 or \x27prompt\x27"
  else
    let enhanced := enhanced_query user_query
    if request.stream then
      ApiResult.streamR (stream_llm_response modelCall registry fuel enhanced)
    else
      match (runTrace modelCall registry fuel [Message.human enhanced]).2 with
      | Except.ok finalState => ApiResult.bufferedR (buffered_response finalState)
      | Except.error e => ApiResult.httpError 500 e

/-! ## Specification-side definitions (for refinement statements) -/

/-- Written from the spec's words: "the de-duplicated ordered list of
distinct tool names used (first-seen order)" — keep the first occurrence of
every name, in order. To be compared with the fold `used_tools_of`. -/
def firstSeen : List String → List String
  | [] => []
  | n :: rest => n :: (firstSeen rest).filter (fun m => m != n)

/-- The tool names carried by the history's messages, in history order:
every message with a set, non-empty `name` attribute contributes it. -/
def tool_names_used (msgs : List Message) : List String :=
  msgs.filterMap (fun m =>
    match m.nameOpt with
    | some n => if n.isEmpty then none else some n
    | none => none)

/-! ## Proof-support definitions -/

/-- The sleeps performed when `k` consecutive failures are retried starting
from delay `d`: `d`, then `min (d * base) M`, and so on. -/
def delaysList (base M : ℚ) : Nat → ℚ → List ℚ
  | 0, _ => []
  | k + 1, d => d :: delaysList base M k (nextDelay base M d)

/-- Placeholder tool call used as the out-of-range default of `List.getD`. -/
def defaultTC : ToolCall :=
  { name := "", args := [], id := "" }

/-- The `used_tools` accumulation step: append a name not yet collected. -/
def dedupAppend (acc : List String) (n : String) : List String :=
  if !acc.contains n then acc ++ [n] else acc

/-- A concrete completed history of the spec's end-to-end scenario: one run
that invoked `search_flights`, `get_weather` and `find_attractions`, in that
order. -/
def exampleRun : List Message :=
  [Message.human "Plan a trip",
   Message.ai ""
     [{ name := "search_flights", args := [("origin", "Singapore"), ("destination", "Tokyo")], id := "c1" },
      { name := "get_weather", args := [("location", "Tokyo")], id := "c2" },
      { name := "find_attractions", args := [("location", "Tokyo")], id := "c3" }],
   Message.toolMsg "flights data" "c1" "search_flights",
   Message.toolMsg "weather data" "c2" "get_weather",
   Message.toolMsg "attractions data" "c3" "find_attractions",
   Message.ai "Your plan" []]

/-! ## Router lemmas -/

lemma hasToolCalls_iff (m : Message) :
    m.hasToolCalls = true ↔ ∃ c tcs, m = Message.ai c tcs ∧ tcs ≠ [] := by
  cases m with
  | human c => simp [Message.hasToolCalls]
  | toolMsg c i n => simp [Message.hasToolCalls]
  | ai c tcs =>
      constructor
      · intro h
        refine ⟨c, tcs, rfl, ?_⟩
        intro hnil
        subst hnil
        exact Bool.false_ne_true h
      · rintro ⟨c1, tcs1, hEq, hne⟩
        injection hEq with hc ht
        subst ht
        cases tcs with
        | nil => exact absurd rfl hne
        | cons a l => rfl

/-- C2: the routing decision is a function of only the last message — two
histories with identical last messages route identically — and it is
`continue` (the tools edge) exactly when that last message is an agent
message carrying at least one tool call request, `stop` (END) otherwise, no
other field of the last message mattering. -/
theorem c2_router_pure_last_message :
    (∀ (m1 m2 : List Message) (h1 : m1 ≠ []) (h2 : m2 ≠ []),
        m1.getLast h1 = m2.getLast h2 →
        should_continue m1 h1 = should_continue m2 h2) ∧
    (∀ (m : List Message) (h : m ≠ []),
        (should_continue m h = Route.tools ↔
          ∃ c tcs, m.getLast h = Message.ai c tcs ∧ tcs ≠ []) ∧
        (should_continue m h = Route.stop ↔
          ¬ ∃ c tcs, m.getLast h = Message.ai c tcs ∧ tcs ≠ [])) := by
  constructor
  · intro m1 m2 h1 h2 hEq
    simp only [should_continue, hEq]
  · intro m h
    cases hb : (m.getLast h).hasToolCalls with
    | true =>
        have hx := (hasToolCalls_iff _).mp hb
        constructor
        · simp [should_continue, hb, hx]
        · simp [should_continue, hb, hx]
    | false =>
        have hx : ¬ ∃ c tcs, m.getLast h = Message.ai c tcs ∧ tcs ≠ [] := by
          intro hcon
          have hcontra := (hasToolCalls_iff _).mpr hcon
          rw [hb] at hcontra
          exact Bool.false_ne_true hcontra
        constructor
        · simp [should_continue, hb, hx]
        · simp [should_continue, hb, hx]

/-- Witness for C2 at concrete histories. -/
theorem c2_router_pure_last_message_witness :
    should_continue
        [Message.human "hi",
         Message.ai "go" [{ name := "get_weather", args := [("location", "Tokyo")], id := "c1" }]]
        (by simp) =
      should_continue
        [Message.ai "go" [{ name := "get_weather", args := [("location", "Tokyo")], id := "c1" }]]
        (by simp) ∧
    should_continue [Message.ai "done" []] (by simp) = Route.stop := by
  constructor
  · exact c2_router_pure_last_message.1 _ _ _ _ rfl
  · refine (c2_router_pure_last_message.2 [Message.ai "done" []] (by simp)).2.mpr ?_
    rintro ⟨c, tcs, hEq, hne⟩
    cases hEq
    exact hne rfl

/-! ## Tool-node lemmas -/

lemma runToolCall_ok_shape {registry : List Tool} {tc : ToolCall} {m : Message}
    (h : runToolCall registry tc = Except.ok m) :
    ∃ content, m = Message.toolMsg content tc.id tc.name := by
  rw [runToolCall] at h
  split at h
  · split at h
    · cases h
      exact ⟨_, rfl⟩
    · cases h
  · cases h
    exact ⟨_, rfl⟩

lemma runToolCall_error_shape {registry : List Tool} {tc : ToolCall} {err : TErr}
    (h : runToolCall registry tc = Except.error err) :
    ∃ t, findTool registry tc.name = some t ∧ t.invoke tc.args = Except.error err := by
  rw [runToolCall] at h
  split at h
  next t hf =>
    split at h
    next s hi => cases h
    next e hi =>
      cases h
      exact ⟨t, hf, hi⟩
  next hf => cases h

lemma tool_node_ok_spec (registry : List Tool) :
    ∀ (tcs : List ToolCall) (results : List Message),
      tool_node registry tcs = Except.ok results →
      results.length = tcs.length ∧
      ∀ i, i < tcs.length →
        ∃ content, results.getD i (Message.human "") =
          Message.toolMsg content ((tcs.getD i defaultTC).id) ((tcs.getD i defaultTC).name) := by
  intro tcs
  induction tcs with
  | nil =>
      intro results h
      simp only [tool_node] at h
      cases h
      exact ⟨rfl, fun i hi => absurd hi (by simp)⟩
  | cons tc rest ih =>
      intro results h
      simp only [tool_node] at h
      split at h
      next e hr => cases h
      next msg hr =>
        split at h
        next e hrest => cases h
        next msgs hrest =>
          cases h
          obtain ⟨hlen, hspec⟩ := ih msgs hrest
          refine ⟨by simp [hlen], ?_⟩
          intro i hi
          cases i with
          | zero =>
              obtain ⟨content, hc⟩ := runToolCall_ok_shape hr
              exact ⟨content, by simp [hc]⟩
          | succ j =>
              simpa using hspec j (by simpa using hi)

/-- C3 counterexample: a history whose last agent message carries one tool
call request (`get_weather` with its required `location` parameter missing)
on which the Tool Step does not produce one result message per request — it
raises `InvalidArguments` and produces no result messages at all, so the
unconditional claim fails. -/
theorem c3_counterexample_raising_step_produces_no_results :
    tool_node tools
        [{ name := "get_weather", args := [("date", "2025-12-01")], id := "call_10" }] =
      Except.error (TErr.invalidArguments "get_weather") ∧
    ¬ ∃ results,
        tool_node tools
            [{ name := "get_weather", args := [("date", "2025-12-01")], id := "call_10" }] =
          Except.ok results := by
  have h0 : tool_node tools
      [{ name := "get_weather", args := [("date", "2025-12-01")], id := "call_10" }] =
      Except.error (TErr.invalidArguments "get_weather") := rfl
  refine ⟨h0, ?_⟩
  rintro ⟨results, hr⟩
  rw [h0] at hr
  cases hr

/-- C3 (amended): whenever the Tool Step completes — as it does except when
a registered tool's invocation raises, e.g. on schema-invalid arguments —
it produces exactly one result message per request, in issuance order: the
i-th result carries the call identifier and tool name of the i-th request;
hence, when the request identifiers are distinct (the data model's
uniqueness invariant), each result's identifier appears exactly once among
the preceding agent message's requests. -/
theorem c3_tool_node_matches_requests (registry : List Tool) (tcs : List ToolCall)
    (results : List Message) (h : tool_node registry tcs = Except.ok results) :
    results.length = tcs.length ∧
    (∀ i, i < tcs.length →
      ∃ content, results.getD i (Message.human "") =
        Message.toolMsg content ((tcs.getD i defaultTC).id) ((tcs.getD i defaultTC).name)) ∧
    ((tcs.map ToolCall.id).Nodup →
      ∀ r ∈ results, (tcs.map ToolCall.id).count r.callId = 1) := by
  obtain ⟨hlen, hspec⟩ := tool_node_ok_spec registry tcs results h
  refine ⟨hlen, hspec, ?_⟩
  intro hnd r hr
  obtain ⟨i, hir, hget⟩ := List.mem_iff_getElem.mp hr
  have hitc : i < tcs.length := by rw [← hlen]; exact hir
  obtain ⟨content, hc⟩ := hspec i hitc
  have hgd : results.getD i (Message.human "") = r := by
    rw [List.getD_eq_getElem _ _ hir, hget]
  have hrid : r.callId = (tcs.getD i defaultTC).id := by
    rw [← hgd, hc, Message.callId]
  have hmem : (tcs.getD i defaultTC).id ∈ tcs.map ToolCall.id := by
    rw [List.getD_eq_getElem _ _ hitc]
    exact List.mem_map_of_mem _ (tcs.getElem_mem hitc)
  rw [hrid]
  exact List.count_eq_one_of_mem hnd hmem

set_option maxRecDepth 8000 in
/-- Witness for C3 on a concrete two-request Tool Step. -/
theorem c3_tool_node_matches_requests_witness :
    [Message.toolMsg (search_flights.run [("origin", "Singapore"), ("destination", "Tokyo")])
        "call_1" "search_flights",
     Message.toolMsg (get_weather.run [("location", "Tokyo")]) "call_2" "get_weather"].length =
      ([{ name := "search_flights", args := [("origin", "Singapore"), ("destination", "Tokyo")], id := "call_1" },
        { name := "get_weather", args := [("location", "Tokyo")], id := "call_2" }] : List ToolCall).length ∧
    (([{ name := "search_flights", args := [("origin", "Singapore"), ("destination", "Tokyo")], id := "call_1" },
       { name := "get_weather", args := [("location", "Tokyo")], id := "call_2" }] : List ToolCall).map
        ToolCall.id).count
      (Message.toolMsg (get_weather.run [("location", "Tokyo")]) "call_2" "get_weather").callId = 1 := by
  have h := c3_tool_node_matches_requests tools
    [{ name := "search_flights", args := [("origin", "Singapore"), ("destination", "Tokyo")], id := "call_1" },
     { name := "get_weather", args := [("location", "Tokyo")], id := "call_2" }]
    [Message.toolMsg (search_flights.run [("origin", "Singapore"), ("destination", "Tokyo")])
        "call_1" "search_flights",
     Message.toolMsg (get_weather.run [("location", "Tokyo")]) "call_2" "get_weather"]
    rfl
  refine ⟨h.1, ?_⟩
  exact h.2.2 (by decide)
    (Message.toolMsg (get_weather.run [("location", "Tokyo")]) "call_2" "get_weather")
    (List.mem_cons_of_mem _ (List.mem_cons_self _ _))

/-- C4 counterexample: a request for the registered tool `search_flights`
whose arguments miss the required `destination` parameter makes the Tool
Step raise (the claim asserts it never raises): `tool_node` propagates
`InvalidArguments` instead of appending a result message. -/
theorem c4_counterexample_invalid_args_raise :
    tool_node tools
        [{ name := "search_flights", args := [("origin", "Singapore")], id := "call_9" }] =
      Except.error (TErr.invalidArguments "search_flights") ∧
    ¬ ∃ results,
        tool_node tools
            [{ name := "search_flights", args := [("origin", "Singapore")], id := "call_9" }] =
          Except.ok results := by
  have h0 : tool_node tools
      [{ name := "search_flights", args := [("origin", "Singapore")], id := "call_9" }] =
      Except.error (TErr.invalidArguments "search_flights") := rfl
  refine ⟨h0, ?_⟩
  rintro ⟨results, hr⟩
  rw [h0] at hr
  cases hr

/-- C4 (amended): a request whose tool name is not registered never makes
the Tool Step raise — it yields a "Tool not found" result message paired to
the request's call identifier and the conversation continues; the Tool Step
can only raise through a registered tool's own invocation failure, and a
request whose arguments fail the registered tool's parameter schema raises
`InvalidArguments`, aborting the step. -/
theorem c4_unknown_tool_recovered (registry : List Tool) :
    (∀ tc : ToolCall, findTool registry tc.name = none →
        runToolCall registry tc =
          Except.ok (Message.toolMsg "Tool not found" tc.id tc.name)) ∧
    (∀ (tcs : List ToolCall) (err : TErr), tool_node registry tcs = Except.error err →
        ∃ tc ∈ tcs, ∃ t, findTool registry tc.name = some t ∧
          t.invoke tc.args = Except.error err) ∧
    (∀ (tc : ToolCall) (t : Tool), findTool registry tc.name = some t →
        t.schemaOk tc.args = false →
        runToolCall registry tc = Except.error (TErr.invalidArguments t.name)) := by
  refine ⟨?_, ?_, ?_⟩
  · intro tc hf
    rw [runToolCall, hf]
    rfl
  · intro tcs
    induction tcs with
    | nil =>
        intro err h
        simp only [tool_node] at h
        cases h
    | cons tc rest ih =>
        intro err h
        simp only [tool_node] at h
        split at h
        next e hr =>
          cases h
          obtain ⟨t, hf, hi⟩ := runToolCall_error_shape hr
          exact ⟨tc, List.mem_cons_self _ _, t, hf, hi⟩
        next msg hr =>
          split at h
          next e hrest =>
            cases h
            obtain ⟨tc', hmem, t, hf, hi⟩ := ih err hrest
            exact ⟨tc', List.mem_cons_of_mem _ hmem, t, hf, hi⟩
          next msgs hrest => cases h
  · intro tc t hf hschema
    rw [runToolCall, hf]
    have hinv : t.invoke tc.args = Except.error (TErr.invalidArguments t.name) := by
      rw [Tool.invoke, hschema]
      rfl
    simp only [hinv]

/-- Witness for C4 (amended): an unregistered name is recovered into a
"Tool not found" message; a missing required argument for `search_flights`
raises `InvalidArguments`. -/
theorem c4_unknown_tool_recovered_witness :
    runToolCall tools { name := "teleport", args := [], id := "call_7" } =
      Except.ok (Message.toolMsg "Tool not found" "call_7" "teleport") ∧
    runToolCall tools { name := "search_flights", args := [("origin", "Singapore")], id := "call_8" } =
      Except.error (TErr.invalidArguments "search_flights") := by
  constructor
  · exact (c4_unknown_tool_recovered tools).1
      { name := "teleport", args := [], id := "call_7" } rfl
  · exact (c4_unknown_tool_recovered tools).2.2
      { name := "search_flights", args := [("origin", "Singapore")], id := "call_8" }
      search_flights rfl rfl

/-- C9: a registered, found tool whose invocation returns the empty string
produces a result message whose content is the literal "Tool not found" —
exactly the content used for an unregistered tool name, so the two cases are
indistinguishable in the conversation history. -/
theorem c9_empty_result_reported_as_not_found (registry : List Tool) (tc : ToolCall)
    (t : Tool) (hfind : findTool registry tc.name = some t)
    (hrun : t.invoke tc.args = Except.ok "") :
    runToolCall registry tc =
      Except.ok (Message.toolMsg "Tool not found" tc.id tc.name) ∧
    ∀ tc' : ToolCall, findTool registry tc'.name = none →
      runToolCall registry tc' =
        Except.ok (Message.toolMsg "Tool not found" tc'.id tc'.name) := by
  constructor
  · rw [runToolCall, hfind]
    simp only [hrun]
    rfl
  · intro tc' hf
    rw [runToolCall, hf]
    rfl

/-- Witness for C9: a registry whose tool returns `""`. -/
theorem c9_empty_result_reported_as_not_found_witness :
    runToolCall [{ name := "empty_result", schemaOk := fun _ => true, run := fun _ => "" }]
        { name := "empty_result", args := [], id := "call_3" } =
      Except.ok (Message.toolMsg "Tool not found" "call_3" "empty_result") := by
  exact (c9_empty_result_reported_as_not_found
      [{ name := "empty_result", schemaOk := fun _ => true, run := fun _ => "" }]
      { name := "empty_result", args := [], id := "call_3" }
      { name := "empty_result", schemaOk := fun _ => true, run := fun _ => "" }
      rfl rfl).1

/-! ## Retry lemmas -/

lemma retryFrom_unfold_ok {α : Type} {call : Nat → Except String α} {base M : ℚ}
    {a : α} {rem attempt : Nat} {d : ℚ} (h : call attempt = Except.ok a) :
    retryFrom call base M (rem + 1) attempt d = (RetryOutcome.ok a, []) := by
  simp only [retryFrom, h]

lemma retryFrom_unfold_err_last {α : Type} {call : Nat → Except String α} {base M : ℚ}
    {e : String} {attempt : Nat} {d : ℚ} (h : call attempt = Except.error e) :
    retryFrom call base M (0 + 1) attempt d = (RetryOutcome.err e, []) := by
  simp only [retryFrom, h]

lemma retryFrom_unfold_err_cont {α : Type} {call : Nat → Except String α} {base M : ℚ}
    {e : String} {rem attempt : Nat} {d : ℚ} (h : call attempt = Except.error e) :
    retryFrom call base M (rem + 1 + 1) attempt d =
      ((retryFrom call base M (rem + 1) (attempt + 1) (nextDelay base M d)).1,
       d :: (retryFrom call base M (rem + 1) (attempt + 1) (nextDelay base M d)).2) := by
  simp only [retryFrom, h]

lemma retryFrom_ok_of_failures {α : Type} (call : Nat → Except String α)
    (base M : ℚ) (a : α) :
    ∀ (k rem attempt : Nat) (d : ℚ), k < rem →
      (∀ i, i < k → ∃ e, call (attempt + i) = Except.error e) →
      call (attempt + k) = Except.ok a →
      retryFrom call base M rem attempt d = (RetryOutcome.ok a, delaysList base M k d) := by
  intro k
  induction k with
  | zero =>
      intro rem attempt d hk hfail hok
      obtain ⟨r, rfl⟩ : ∃ r, rem = r + 1 := ⟨rem - 1, by omega⟩
      rw [Nat.add_zero] at hok
      rw [retryFrom_unfold_ok hok]
      rfl
  | succ k ih =>
      intro rem attempt d hk hfail hok
      obtain ⟨r1, rfl⟩ : ∃ r1, rem = r1 + 1 + 1 := ⟨rem - 2, by omega⟩
      have hr : k < r1 + 1 := by omega
      obtain ⟨e0, he0⟩ := hfail 0 (by omega)
      rw [Nat.add_zero] at he0
      have hfail1 : ∀ i, i < k → ∃ e, call (attempt + 1 + i) = Except.error e := by
        intro i hi
        have h1 := hfail (i + 1) (by omega)
        have heq : attempt + (i + 1) = attempt + 1 + i := by omega
        rw [heq] at h1
        exact h1
      have hok1 : call (attempt + 1 + k) = Except.ok a := by
        have heq : attempt + 1 + k = attempt + (k + 1) := by omega
        rw [heq]
        exact hok
      have hrec := ih (r1 + 1) (attempt + 1) (nextDelay base M d) hr hfail1 hok1
      rw [retryFrom_unfold_err_cont he0, hrec]
      rfl

lemma retryFrom_all_fail {α : Type} (call : Nat → Except String α)
    (base M : ℚ) (e : Nat → String) :
    ∀ (rem attempt : Nat) (d : ℚ), 0 < rem →
      (∀ i, i < rem → call (attempt + i) = Except.error (e (attempt + i))) →
      retryFrom call base M rem attempt d =
        (RetryOutcome.err (e (attempt + (rem - 1))), delaysList base M (rem - 1) d) := by
  intro rem
  induction rem with
  | zero =>
      intro attempt d hpos hfail
      exact absurd hpos (by omega)
  | succ r ih =>
      intro attempt d hpos hfail
      have h0 := hfail 0 (by omega)
      rw [Nat.add_zero] at h0
      cases r with
      | zero =>
          rw [retryFrom_unfold_err_last h0]
          norm_num [delaysList]
      | succ r1 =>
          have hfail1 : ∀ i, i < r1 + 1 →
              call (attempt + 1 + i) = Except.error (e (attempt + 1 + i)) := by
            intro i hi
            have h1 := hfail (i + 1) (by omega)
            have heq : attempt + (i + 1) = attempt + 1 + i := by omega
            rw [heq] at h1
            exact h1
          have hrec := ih (attempt + 1) (nextDelay base M d) (by omega) hfail1
          rw [retryFrom_unfold_err_cont h0, hrec]
          have heq : attempt + 1 + (r1 + 1 - 1) = attempt + (r1 + 1 + 1 - 1) := by omega
          simp only [Nat.add_sub_cancel] at heq ⊢
          rw [heq]
          rfl

lemma nextDelay_min_pow (base M : ℚ) (hb : 1 ≤ base) (hM : 0 ≤ M) (d : ℚ) (i : Nat) :
    (if i = 0 then nextDelay base M d else min (nextDelay base M d * base ^ i) M) =
      min (d * base ^ (i + 1)) M := by
  have hb0 : (0 : ℚ) ≤ base := le_trans zero_le_one hb
  cases i with
  | zero => simp [nextDelay]
  | succ j =>
      simp only [Nat.succ_ne_zero, if_false]
      rw [nextDelay, min_mul_of_nonneg _ _ (pow_nonneg hb0 (j + 1))]
      rw [mul_assoc, ← pow_succ']
      rw [min_assoc]
      congr 1
      refine min_eq_right ?_
      calc M = M * 1 := by ring
        _ ≤ M * base ^ (j + 1) := by
            refine mul_le_mul_of_nonneg_left ?_ hM
            exact one_le_pow₀ hb

lemma delaysList_eq_map (base M : ℚ) (hb : 1 ≤ base) (hM : 0 ≤ M) :
    ∀ (k : Nat) (d : ℚ), delaysList base M k d =
      (List.range k).map (fun i => if i = 0 then d else min (d * base ^ i) M) := by
  intro k
  induction k with
  | zero => intro d; simp [delaysList]
  | succ k ih =>
      intro d
      rw [List.range_succ_eq_map, delaysList, ih (nextDelay base M d)]
      simp only [List.map_cons, List.map_map, if_pos rfl]
      congr 1
      refine List.map_congr_left ?_
      intro i _
      show (if i = 0 then nextDelay base M d else min (nextDelay base M d * base ^ i) M) =
        (if i + 1 = 0 then d else min (d * base ^ (i + 1)) M)
      rw [if_neg (Nat.succ_ne_zero i)]
      exact nextDelay_min_pow base M hb hM d i

/-- C1: for the retry wrapper with parameters (max_retries, initial_delay,
exponential_base ≥ 1, max_delay ≥ 0): if the underlying call fails
`k < max_retries` times and then succeeds, the wrapper returns the success
value and the i-th sleep (0-indexed) is `initial_delay` when `i = 0` and
`min (initial_delay * base ^ i) max_delay` afterwards; if all `max_retries`
attempts fail, the wrapper propagates the last underlying error, with
exactly `max_retries - 1` sleeps — none after the last attempt. -/
theorem c1_retry_exponential_backoff {α : Type}
    (call : Nat → Except String α) (max_retries : Nat)
    (initial_delay exponential_base max_delay : ℚ)
    (hbase : 1 ≤ exponential_base) (hmax : 0 ≤ max_delay) :
    (∀ (k : Nat) (a : α), k < max_retries →
        (∀ i, i < k → ∃ e, call i = Except.error e) →
        call k = Except.ok a →
        retry_with_exponential_backoff_async call max_retries
            initial_delay exponential_base max_delay =
          (RetryOutcome.ok a,
           (List.range k).map (fun i => if i = 0 then initial_delay
             else min (initial_delay * exponential_base ^ i) max_delay))) ∧
    (∀ (e : Nat → String), 0 < max_retries →
        (∀ i, i < max_retries → call i = Except.error (e i)) →
        retry_with_exponential_backoff_async call max_retries
            initial_delay exponential_base max_delay =
          (RetryOutcome.err (e (max_retries - 1)),
           (List.range (max_retries - 1)).map (fun i => if i = 0 then initial_delay
             else min (initial_delay * exponential_base ^ i) max_delay))) := by
  constructor
  · intro k a hk hfail hok
    rw [retry_with_exponential_backoff_async,
      retryFrom_ok_of_failures call exponential_base max_delay a k max_retries 0
        initial_delay hk (by simpa using hfail) (by simpa using hok),
      delaysList_eq_map _ _ hbase hmax]
  · intro e hpos hfail
    rw [retry_with_exponential_backoff_async,
      retryFrom_all_fail call exponential_base max_delay e max_retries 0
        initial_delay hpos (by simpa using hfail),
      delaysList_eq_map _ _ hbase hmax]
    simp

/-- Witness for C1: the spec's scenario (two failures then success with
`max_retries = 3, initial_delay = 1, base = 2`) sleeps 1 then 2 and returns
the value; three failures propagate the last error after the same sleeps. -/
theorem c1_retry_exponential_backoff_witness :
    retry_with_exponential_backoff_async
        (fun i => if i < 2 then Except.error "boom" else Except.ok (42 : Nat)) 3 1 2 60 =
      (RetryOutcome.ok 42, [1, 2]) ∧
    retry_with_exponential_backoff_async
        (fun _ => (Except.error "down" : Except String Nat)) 3 1 2 60 =
      (RetryOutcome.err "down", [1, 2]) := by
  constructor
  · have h := (c1_retry_exponential_backoff
        (fun i => if i < 2 then Except.error "boom" else Except.ok (42 : Nat)) 3 1 2 60
        (by norm_num) (by norm_num)).1 2 42 (by norm_num)
        (fun i hi => ⟨"boom", if_pos hi⟩) (by norm_num)
    rw [h]
    norm_num [List.range_succ]
  · have h := (c1_retry_exponential_backoff
        (fun _ => (Except.error "down" : Except String Nat)) 3 1 2 60
        (by norm_num) (by norm_num)).2 (fun _ => "down") (by norm_num)
        (fun i _ => rfl)
    rw [h]
    norm_num [List.range_succ]

/-! ## Append-only history (C5) -/

/-- C5: the Agent Step returns the input history with exactly one new agent
message appended — no existing message rewritten, reordered or deleted —
and the Tool Step only appends messages; history is append-only. -/
theorem c5_history_append_only
    (modelCall : List Message → Nat → Except String (String × List ToolCall))
    (registry : List Tool) :
    (∀ (state state' : List Message), agent_step modelCall state = Except.ok state' →
        ∃ c tcs, state' = state ++ [Message.ai c tcs]) ∧
    (∀ (state : List Message) (h : state ≠ []) (state' : List Message),
        tool_step registry state h = Except.ok state' →
        ∃ results, state' = state ++ results) := by
  constructor
  · intro state state' h
    rw [agent_step, call_model] at h
    cases hr : (call_llm_with_retry modelCall state).1 with
    | ok p =>
        obtain ⟨c, tcs⟩ := p
        rw [hr] at h
        cases h
        exact ⟨c, tcs, rfl⟩
    | err e =>
        rw [hr] at h
        cases h
    | noReturn =>
        rw [hr] at h
        cases h
  · intro state h state' hok
    rw [tool_step] at hok
    cases ht : tool_node registry (state.getLast h).toolCallsAttr with
    | error e =>
        rw [ht] at hok
        cases hok
    | ok results =>
        rw [ht] at hok
        cases hok
        exact ⟨results, rfl⟩

set_option maxRecDepth 8000 in
/-- Witness for C5: one concrete Agent Step and one concrete Tool Step. -/
theorem c5_history_append_only_witness :
    (∃ c tcs, [Message.human "q", Message.ai "Hello" []] =
        [Message.human "q"] ++ [Message.ai c tcs]) ∧
    (∃ results,
        [Message.ai "" [{ name := "get_weather", args := [("location", "Tokyo")], id := "call_4" }],
         Message.toolMsg (get_weather.run [("location", "Tokyo")]) "call_4" "get_weather"] =
        [Message.ai "" [{ name := "get_weather", args := [("location", "Tokyo")], id := "call_4" }]] ++
          results) := by
  constructor
  · exact (c5_history_append_only (fun _ _ => Except.ok ("Hello", [])) tools).1
      [Message.human "q"] [Message.human "q", Message.ai "Hello" []] rfl
  · exact (c5_history_append_only (fun _ _ => Except.ok ("Hello", [])) tools).2
      [Message.ai "" [{ name := "get_weather", args := [("location", "Tokyo")], id := "call_4" }]]
      (by simp)
      [Message.ai "" [{ name := "get_weather", args := [("location", "Tokyo")], id := "call_4" }],
       Message.toolMsg (get_weather.run [("location", "Tokyo")]) "call_4" "get_weather"]
      rfl

/-! ## Endpoint query/prompt handling (C10) -/

/-- C10: a request whose `query` and `prompt` are both absent or empty is
rejected with HTTP 422 before the workflow runs (the result does not depend
on the model, the tools or the fuel); a request carrying only `prompt`
behaves exactly as if the text had been sent as `query`; when both are
present and `query` is non-empty, `query` wins. -/
theorem c10_endpoint_query_validation
    (modelCall : List Message → Nat → Except String (String × List ToolCall))
    (registry : List Tool) (fuel : Nat) :
    (∀ r : TravelRequest, truthyStr r.query = false → truthyStr r.prompt = false →
        travel_assistant_endpoint modelCall registry fuel r =
          ApiResult.httpError 422 "Missing required field: \x27query\x27 or \x27prompt\x27") ∧
    (∀ (p : String) (s : Bool),
        travel_assistant_endpoint modelCall registry fuel
            { query := none, prompt := some p, stream := s } =
          travel_assistant_endpoint modelCall registry fuel
            { query := some p, prompt := none, stream := s }) ∧
    (∀ (q p : String) (s : Bool), q.isEmpty = false →
        travel_assistant_endpoint modelCall registry fuel
            { query := some q, prompt := some p, stream := s } =
          travel_assistant_endpoint modelCall registry fuel
            { query := some q, prompt := none, stream := s }) := by
  refine ⟨?_, ?_, ?_⟩
  · intro r hq hp
    have hgq : r.get_query = "" := by
      rw [TravelRequest.get_query, hq, hp]
      simp
    have hemp : ("" : String).isEmpty = true := rfl
    simp [travel_assistant_endpoint, hgq, hemp]
  · intro p s
    cases hp : p.isEmpty with
    | true => simp [travel_assistant_endpoint, TravelRequest.get_query, truthyStr, hp]
    | false => simp [travel_assistant_endpoint, TravelRequest.get_query, truthyStr, hp]
  · intro q p s hq
    simp [travel_assistant_endpoint, TravelRequest.get_query, truthyStr, hq]

/-- Witness for C10 at concrete requests. -/
theorem c10_endpoint_query_validation_witness :
    travel_assistant_endpoint (fun _ _ => Except.error "offline") tools 1
        { query := none, prompt := some "", stream := false } =
      ApiResult.httpError 422 "Missing required field: \x27query\x27 or \x27prompt\x27" ∧
    travel_assistant_endpoint (fun _ _ => Except.error "offline") tools 1
        { query := none, prompt := some "Tokyo trip", stream := true } =
      travel_assistant_endpoint (fun _ _ => Except.error "offline") tools 1
        { query := some "Tokyo trip", prompt := none, stream := true } := by
  constructor
  · exact (c10_endpoint_query_validation (fun _ _ => Except.error "offline") tools 1).1
      { query := none, prompt := some "", stream := false } rfl rfl
  · exact (c10_endpoint_query_validation (fun _ _ => Except.error "offline") tools 1).2.1
      "Tokyo trip" true

/-! ## Used-tools lemmas (C6) -/

lemma tool_names_used_cons (m : Message) (rest : List Message) :
    tool_names_used (m :: rest) =
      (match m.nameOpt with
       | some n => if n.isEmpty then tool_names_used rest else n :: tool_names_used rest
       | none => tool_names_used rest) := by
  rw [tool_names_used, List.filterMap_cons]
  cases hm : m.nameOpt with
  | none => simp only [hm]; rfl
  | some n =>
      simp only [hm]
      cases hn : n.isEmpty with
      | true => simp only [hn, if_pos rfl]; rfl
      | false => simp only [hn, Bool.false_eq_true, if_false]; rfl

lemma used_tools_of_eq_fold :
    ∀ (msgs : List Message) (acc : List String),
      msgs.foldl
        (fun acc msg =>
          match msg.nameOpt with
          | some n => if !n.isEmpty && !acc.contains n then acc ++ [n] else acc
          | none => acc)
        acc = (tool_names_used msgs).foldl dedupAppend acc := by
  intro msgs
  induction msgs with
  | nil => intro acc; rfl
  | cons m rest ih =>
      intro acc
      rw [List.foldl_cons, tool_names_used_cons]
      cases hm : m.nameOpt with
      | none =>
          simp only [hm]
          exact ih acc
      | some n =>
          simp only [hm]
          cases hn : n.isEmpty with
          | true =>
              simp only [hn, Bool.not_true, Bool.false_and, Bool.false_eq_true, if_false,
                if_pos rfl]
              exact ih acc
          | false =>
              simp only [hn, Bool.not_false, Bool.true_and, Bool.false_eq_true, if_false]
              rw [List.foldl_cons]
              have hstep : (if (!acc.contains n) = true then acc ++ [n] else acc) =
                  dedupAppend acc n := by
                rw [dedupAppend]
              rw [hstep]
              exact ih _

lemma foldl_dedupAppend_eq (l : List String) :
    ∀ acc : List String,
      l.foldl dedupAppend acc = acc ++ (firstSeen l).filter (fun n => !acc.contains n) := by
  induction l with
  | nil => intro acc; simp [firstSeen]
  | cons n rest ih =>
      intro acc
      rw [List.foldl_cons, firstSeen]
      cases hc : acc.contains n with
      | true =>
          have hmem : n ∈ acc := by simpa using hc
          have hstep : dedupAppend acc n = acc := by
            simp [dedupAppend, hmem]
          rw [hstep, ih acc,
            List.filter_cons_of_neg (by simp [hmem]), List.filter_filter]
          congr 1
          refine List.filter_congr ?_
          intro a _
          cases hca : acc.contains a with
          | true =>
              have hamem : a ∈ acc := by simpa using hca
              simp [hamem]
          | false =>
              have hamem : a ∉ acc := by simpa using hca
              have hne : (a != n) = true := by
                refine bne_iff_ne.mpr ?_
                intro hEq
                rw [hEq] at hamem
                exact hamem hmem
              simp [hamem, hne]
      | false =>
          have hmem : n ∉ acc := by simpa using hc
          have hstep : dedupAppend acc n = acc ++ [n] := by
            simp [dedupAppend, hmem]
          rw [hstep, ih (acc ++ [n]),
            List.filter_cons_of_pos (by simp [hmem]), List.filter_filter,
            ← List.append_cons acc n]
          congr 1
          congr 1
          refine List.filter_congr ?_
          intro a _
          show (!(acc ++ [n]).contains a) = ((!acc.contains a) && (a != n))
          by_cases hca : a ∈ acc
          · simp [hca]
          · by_cases hmn : a = n
            · simp [hca, hmn]
            · simp [hca, hmn]

lemma used_tools_of_eq_firstSeen (msgs : List Message) :
    used_tools_of msgs = firstSeen (tool_names_used msgs) := by
  rw [used_tools_of, used_tools_of_eq_fold, foldl_dedupAppend_eq]
  simp only [List.nil_append]
  refine Eq.trans (List.filter_congr ?_) (List.filter_true _)
  intro a _
  rfl

lemma firstSeen_nodup (l : List String) : (firstSeen l).Nodup := by
  induction l with
  | nil => simp [firstSeen]
  | cons n rest ih =>
      rw [firstSeen]
      refine List.nodup_cons.mpr ⟨?_, ih.filter _⟩
      intro hmem
      have hcond := List.of_mem_filter hmem
      simp at hcond

lemma mem_firstSeen (a : String) (l : List String) : a ∈ firstSeen l ↔ a ∈ l := by
  induction l with
  | nil => simp [firstSeen]
  | cons n rest ih =>
      rw [firstSeen]
      by_cases h : a = n
      · simp [h]
      · simp [List.mem_cons, List.mem_filter, ih, h, bne_iff_ne]

/-- C6: the buffered result is the final agent message's content together
with the list of distinct tool names used across the run: the `used_tools`
fold equals the spec-side first-seen de-duplication of the history's tool
names — duplicate-free, containing exactly the names used, ordered by first
occurrence — and on the spec's example run it yields
`["search_flights", "get_weather", "find_attractions"]`. -/
theorem c6_buffered_used_tools_first_seen (msgs : List Message) :
    (buffered_response msgs).response = (msgs.getLastD (Message.human "")).content ∧
    (buffered_response msgs).used_tools = firstSeen (tool_names_used msgs) ∧
    (buffered_response msgs).used_tools.Nodup ∧
    (∀ n, n ∈ (buffered_response msgs).used_tools ↔ n ∈ tool_names_used msgs) ∧
    used_tools_of exampleRun = ["search_flights", "get_weather", "find_attractions"] := by
  have hfs : (buffered_response msgs).used_tools = firstSeen (tool_names_used msgs) :=
    used_tools_of_eq_firstSeen msgs
  refine ⟨rfl, hfs, ?_, ?_, ?_⟩
  · rw [hfs]
    exact firstSeen_nodup _
  · intro n
    rw [hfs]
    exact mem_firstSeen n _
  · rfl

/-! ## Stream lemmas (C7, C8) -/

lemma emitEvent_data (ev : NodeEvent) : ∀ r ∈ emitEvent ev, ∃ s, r = SSE.data s := by
  cases ev with
  | agent msgs =>
      intro r hr
      cases hl : msgs.getLast? with
      | none => simp [emitEvent, hl] at hr
      | some last =>
          cases h1 : last.hasToolCalls with
          | true =>
              simp only [emitEvent, hl, h1, if_true, List.mem_cons, List.mem_map] at hr
              rcases hr with rfl | ⟨tc, _, rfl⟩
              · exact ⟨_, rfl⟩
              · exact ⟨_, rfl⟩
          | false =>
              cases h2 : last.content.isEmpty with
              | true => simp [emitEvent, hl, h1, h2] at hr
              | false =>
                  simp only [emitEvent, hl, h1, h2, Bool.false_eq_true, if_false,
                    Bool.not_false, if_true, List.mem_map] at hr
                  obtain ⟨s, _, rfl⟩ := hr
                  exact ⟨_, rfl⟩
  | tools msgs =>
      intro r hr
      simp only [emitEvent, List.mem_map] at hr
      obtain ⟨m, _, rfl⟩ := hr
      exact ⟨_, rfl⟩

lemma flatMap_emitEvent_data (evs : List NodeEvent) :
    SSE.done ∉ evs.flatMap emitEvent ∧ ∀ e, SSE.errorRec e ∉ evs.flatMap emitEvent := by
  constructor
  · intro hmem
    obtain ⟨ev, _, hin⟩ := List.mem_flatMap.mp hmem
    obtain ⟨s, hs⟩ := emitEvent_data ev _ hin
    cases hs
  · intro e hmem
    obtain ⟨ev, _, hin⟩ := List.mem_flatMap.mp hmem
    obtain ⟨s, hs⟩ := emitEvent_data ev _ hin
    cases hs

lemma stream_llm_response_eq
    (modelCall : List Message → Nat → Except String (String × List ToolCall))
    (registry : List Tool) (fuel : Nat) (query : String) :
    stream_llm_response modelCall registry fuel query =
      (runTrace modelCall registry fuel [Message.human query]).1.flatMap emitEvent ++
        (match (runTrace modelCall registry fuel [Message.human query]).2 with
         | Except.ok _ => [SSE.done]
         | Except.error e => [SSE.errorRec e]) := rfl

/-- C7: every stream ends with exactly one terminal record: on a completed
run the last record is the `[DONE]` sentinel, occurring once, with no error
record anywhere; on an aborting failure the last record is a single error
record carrying the failure and the `[DONE]` sentinel never appears — a
stream never contains both. -/
theorem c7_stream_exactly_one_terminal
    (modelCall : List Message → Nat → Except String (String × List ToolCall))
    (registry : List Tool) (fuel : Nat) (query : String) :
    ((stream_llm_response modelCall registry fuel query).getLast? = some SSE.done ∧
     (stream_llm_response modelCall registry fuel query).count SSE.done = 1 ∧
     ∀ e, SSE.errorRec e ∉ stream_llm_response modelCall registry fuel query) ∨
    (∃ msg,
      (stream_llm_response modelCall registry fuel query).getLast? =
        some (SSE.errorRec msg) ∧
      (stream_llm_response modelCall registry fuel query).count (SSE.errorRec msg) = 1 ∧
      SSE.done ∉ stream_llm_response modelCall registry fuel query ∧
      ∀ e, e ≠ msg →
        SSE.errorRec e ∉ stream_llm_response modelCall registry fuel query) := by
  have hbody := flatMap_emitEvent_data (runTrace modelCall registry fuel [Message.human query]).1
  rw [stream_llm_response_eq]
  cases hres : (runTrace modelCall registry fuel [Message.human query]).2 with
  | ok st =>
      left
      refine ⟨List.getLast?_concat _, ?_, ?_⟩
      · rw [List.count_append, List.count_eq_zero.mpr hbody.1, List.count_singleton_self]
      · intro e hmem
        rcases List.mem_append.mp hmem with hdone | hdone
        · exact hbody.2 e hdone
        · simp at hdone
  | error msg =>
      right
      refine ⟨msg, List.getLast?_concat _, ?_, ?_, ?_⟩
      · rw [List.count_append, List.count_eq_zero.mpr (hbody.2 msg), List.count_singleton_self]
      · intro hmem
        rcases List.mem_append.mp hmem with hdone | hdone
        · exact hbody.1 hdone
        · simp at hdone
      · intro e hne hmem
        rcases List.mem_append.mp hmem with hdone | hdone
        · exact hbody.2 e hdone
        · simp at hdone
          exact hne hdone

lemma should_continue_add (state : List Message) (m : Message)
    (h : add_messages state [m] ≠ []) :
    should_continue (add_messages state [m]) h =
      if m.hasToolCalls then Route.tools else Route.stop := by
  have hEq : (add_messages state [m]).getLast h = (state ++ [m]).getLast (by simp) :=
    List.getLast_congr _ _ (by rw [add_messages])
  rw [should_continue, hEq]
  simp

lemma finalContentBodies_cons (ev : NodeEvent) (evs : List NodeEvent) :
    finalContentBodies (ev :: evs) =
      (match ev with
       | NodeEvent.agent msgs =>
           match msgs.getLast? with
           | none => []
           | some last =>
               if !last.hasToolCalls && !last.content.isEmpty then
                 emitAgentFinal last.content
               else []
       | NodeEvent.tools _ => []) ++ finalContentBodies evs := by
  rw [finalContentBodies, List.flatMap_cons]
  rfl

lemma runTrace_ok_final
    (modelCall : List Message → Nat → Except String (String × List ToolCall))
    (registry : List Tool) :
    ∀ (fuel : Nat) (state : List Message) (evs : List NodeEvent)
      (finalState : List Message),
      runTrace modelCall registry fuel state = (evs, Except.ok finalState) →
      ∃ c, finalState.getLastD (Message.human "") = Message.ai c [] ∧
        finalContentBodies evs = (if c.isEmpty then [] else emitAgentFinal c) := by
  intro fuel
  induction fuel with
  | zero =>
      intro state evs fs h
      simp only [runTrace] at h
      simp at h
  | succ fuel ih =>
      intro state evs fs h
      simp only [runTrace] at h
      split at h
      next e heq => simp at h
      next heq => simp at h
      next c tcs heq =>
        split at h
        next hroute =>
            -- Route.stop: the run ends with this agent message
            rw [should_continue_add] at hroute
            have htcs : tcs = [] := by
              cases htcs : (Message.ai c tcs).hasToolCalls with
              | true => rw [htcs] at hroute; simp at hroute
              | false =>
                  have : tcs.isEmpty = true := by
                    have h1 : (!tcs.isEmpty) = false := htcs
                    simp at h1
                    simp [h1]
                  exact List.isEmpty_iff.mp this
            subst htcs
            injection h with h1 h2
            injection h2 with h2
            subst h1
            subst h2
            refine ⟨c, ?_, ?_⟩
            · rw [add_messages, List.getLastD_concat]
            · rw [finalContentBodies_cons]
              have hlast : ([Message.ai c []] : List Message).getLast? =
                  some (Message.ai c []) := rfl
              simp only [hlast, finalContentBodies, List.flatMap_nil, List.append_nil]
              have hcalls : (Message.ai c []).hasToolCalls = false := rfl
              rw [hcalls]
              cases hce : c.isEmpty with
              | true => simp [Message.content, hce]
              | false => simp [Message.content, hce]
        next hroute =>
            -- Route.tools: one more agent/tools alternation
            rw [should_continue_add] at hroute
            have hcalls : (Message.ai c tcs).hasToolCalls = true := by
              cases htc : (Message.ai c tcs).hasToolCalls with
              | true => rfl
              | false => rw [htc] at hroute; simp at hroute
            split at h
            next te htn => simp at h
            next results htn =>
                rcases hrun : runTrace modelCall registry fuel
                    (add_messages (add_messages state [Message.ai c tcs]) results) with
                  ⟨evs1, res1⟩
                rw [hrun] at h
                injection h with h1 h2
                subst h1
                subst h2
                obtain ⟨c1, hlast, hfcb⟩ := ih _ _ _ hrun
                refine ⟨c1, hlast, ?_⟩
                rw [finalContentBodies_cons, finalContentBodies_cons]
                have hl : ([Message.ai c tcs] : List Message).getLast? =
                    some (Message.ai c tcs) := rfl
                simp only [hl, hcalls, Bool.not_true, Bool.false_and, Bool.false_eq_true,
                  if_false, List.nil_append]
                exact hfcb

/-- C8 counterexample: a deterministic model that immediately answers
"Hello" with no tool calls — the concatenated final-content bodies of the
stream are the decorated travel-plan text, which differs from the buffered
response field (the bare "Hello"). -/
theorem c8_counterexample_decorated_stream :
    runTrace (fun _ _ => Except.ok ("Hello", [])) tools 5 [Message.human "q"] =
      ([NodeEvent.agent [Message.ai "Hello" []]],
       Except.ok [Message.human "q", Message.ai "Hello" []]) ∧
    String.join
        (finalContentBodies [NodeEvent.agent [Message.ai "Hello" []]]) ≠
      (buffered_response [Message.human "q", Message.ai "Hello" []]).response := by
  constructor
  · rfl
  · intro hEq
    have h1 : String.join
        (finalContentBodies [NodeEvent.agent [Message.ai "Hello" []]]) =
        "\\n\\n🤖 AI Agent is preparing your travel plan...\\n\\n📋 **Travel Plan:**\\nHello" := by
      rfl
    have h2 : (buffered_response [Message.human "q", Message.ai "Hello" []]).response =
        "Hello" := rfl
    rw [h1, h2] at hEq
    exact absurd hEq (by decide)

/-- C8 (amended): for a deterministic model and tools, the concatenation of
the final-content bodies of a completed streaming run equals the fixed
preparation banner followed by the travel-plan prefix followed by the
buffered-mode response field for the same run — the decorated response, not
the bare response field. -/
theorem c8_stream_buffered_equal_up_to_decoration
    (modelCall : List Message → Nat → Except String (String × List ToolCall))
    (registry : List Tool) (fuel : Nat) (state : List Message)
    (evs : List NodeEvent) (finalState : List Message)
    (h : runTrace modelCall registry fuel state = (evs, Except.ok finalState))
    (hne : (finalState.getLastD (Message.human "")).content.isEmpty = false) :
    String.join (finalContentBodies evs) =
      "\\n\\n🤖 AI Agent is preparing your travel plan...\\n" ++
        ("\\n📋 **Travel Plan:**\\n" ++ (buffered_response finalState).response) := by
  obtain ⟨c, hlast, hfcb⟩ := runTrace_ok_final modelCall registry fuel state evs finalState h
  have hresp : (buffered_response finalState).response = c := by
    show (finalState.getLastD (Message.human "")).content = c
    rw [hlast]
    rfl
  rw [hlast] at hne
  have hce : c.isEmpty = false := hne
  rw [hfcb, hce, hresp]
  simp [emitAgentFinal, String.join]

/-- Witness for C8 (amended) at the counterexample's deterministic run. -/
theorem c8_stream_buffered_equal_up_to_decoration_witness :
    String.join (finalContentBodies [NodeEvent.agent [Message.ai "Hello" []]]) =
      "\\n\\n🤖 AI Agent is preparing your travel plan...\\n" ++
        ("\\n📋 **Travel Plan:**\\n" ++
          (buffered_response [Message.human "q", Message.ai "Hello" []]).response) := by
  exact c8_stream_buffered_equal_up_to_decoration (fun _ _ => Except.ok ("Hello", []))
    tools 5 [Message.human "q"] [NodeEvent.agent [Message.ai "Hello" []]]
    [Message.human "q", Message.ai "Hello" []] rfl rfl

end TravelAssistant

